import Mathlib

/-!
Shallow embedding of the HireLoop recruiting pipeline backend
(`src/backend/functions/*.ts`, `src/unnamed/part_003` = `ingest_webhook.ts`,
and the local mock server `src/server.js`).

The durable store (Supabase tables `roles`, `candidates`, `outreach`,
`engagements`, `config`) is modelled as explicit lists; each edge function
becomes a pure state transformer `DB → ... → DB × Resp`.  Only the columns the
functions actually read or write are carried (the schema's remaining columns —
contact fields, scores on the candidates table, timestamps — are never
consulted by the control flow embedded here).  `Math.random()` and the
`Date.now()` clock are passed in explicitly: a call `Math.floor(Math.random()*n)`
is rendered as `rand k % n` where `rand : Nat → Nat` is the stream of raw draws
and `k` the index of the call, so that `rand k % n < n` exactly mirrors
`floor(r*n) ∈ [0, n)` for `r ∈ [0, 1)`.
-/

namespace HireLoop

/-- Candidate lifecycle statuses, the closed set listed in
`src/backend/schema.sql` line 69
(`sourced|contacted|interested|screened|interviewing|offered|hired|rejected`). -/
inductive Status where
  | sourced
  | contacted
  | interested
  | screened
  | interviewing
  | offered
  | hired
  | rejected
deriving DecidableEq, Repr

/-- A row of the `candidates` table, projected to the columns the embedded
functions read or write (`id`, `role_id`, `status`). -/
structure Candidate where
  id : String
  role_id : String
  status : Status
deriving DecidableEq, Repr

/-- A row of the `roles` table, projected to the columns `pipeline_daemon.ts`
reads (`id`, `title`, `status`, `min_pipeline`).  `status` is kept as the raw
string the code compares against (`.eq('status', 'open')`). -/
structure Role where
  id : String
  title : String
  status : String
  min_pipeline : Nat
deriving DecidableEq, Repr

/-- A row of the `outreach` table as written by `send_sequence.ts`
(`meta` is always `{}` there and is omitted). -/
structure Outreach where
  id : String
  candidate_id : String
  provider : String
  step : Nat
  last_sent_at : Option Nat
  next_send_at : Option Nat
deriving DecidableEq, Repr

/-- A row of the `engagements` table (the opaque `payload` column is omitted;
no embedded control flow reads it). -/
structure Engagement where
  candidate_id : String
  event : String
deriving DecidableEq, Repr

/-- A row of the `config` table as written by `pipeline_daemon.ts`:
`{ key, value: { message, count } }`. -/
structure ConfigEntry where
  key : String
  message : String
  count : Nat
deriving DecidableEq, Repr

/-- The durable store: the five tables the embedded functions touch. -/
structure DB where
  roles : List Role
  candidates : List Candidate
  outreach : List Outreach
  engagements : List Engagement
  config : List ConfigEntry
deriving DecidableEq, Repr

/-- HTTP-level outcome of an edge-function call: a 2xx JSON success or an
error response with its status code and message. -/
inductive Resp where
  | ok (status : Nat)
  | err (status : Nat) (msg : String)
deriving DecidableEq, Repr

/-- JS truthiness on an optional string field: `undefined`/absent and the
empty string are falsy. -/
def truthyStr : Option String → Option String
  | some s => if s = "" then none else some s
  | none => none

/-- The JS `a || b` idiom on two optional string fields (used for
`payload.candidate_id || payload.recipient_id` and
`payload.event || payload.type`). -/
def jsOr (a b : Option String) : Option String :=
  match truthyStr a with
  | some s => some s
  | none => truthyStr b

/-- The status write both `ingest_webhook.ts`, `send_sequence.ts` and
`schedule_meeting.ts` perform:
`supabase.from('candidates').update({ status: st }).eq('id', cid)` — an
unconditional overwrite of every row whose `id` matches, with no
compare-and-swap on the prior status and no failure outcome. -/
def updateCandidateStatus (db : DB) (cid : String) (st : Status) : DB :=
  { db with candidates :=
      db.candidates.map fun c => if c.id == cid then { c with status := st } else c }

/-- First stored status of the candidate with the given id (`maybeSingle`). -/
def statusOf (db : DB) (cid : String) : Option Status :=
  (db.candidates.find? (fun c => c.id == cid)).map (·.status)

/-- The event→status mapping of `ingest_webhook.ts` lines 33-36:
`opened→contacted`, `replied→interested`, `bounced→rejected`, anything else
leaves `newStatus = null`. -/
def eventStatus (event : String) : Option Status :=
  if event == "opened" then some .contacted
  else if event == "replied" then some .interested
  else if event == "bounced" then some .rejected
  else none

/-- The JSON body of a provider webhook, with the alternative field names the
code consults. -/
structure WebhookPayload where
  candidate_id : Option String
  recipient_id : Option String
  event : Option String
  type : Option String
deriving DecidableEq, Repr

/-- `ingest_webhook.ts` (`src/unnamed/part_003`), POST path after JSON
parsing: extract `candidate_id || recipient_id` and `event || type`; if either
is falsy answer 400 without touching the store; otherwise insert the
engagement row and, when the event maps to a status, overwrite the candidate's
status unconditionally. -/
def ingest_webhook (db : DB) (p : WebhookPayload) : DB × Resp :=
  match jsOr p.candidate_id p.recipient_id, jsOr p.event p.type with
  | some cid, some ev =>
    let db1 := { db with engagements := db.engagements ++ [⟨cid, ev⟩] }
    let db2 :=
      match eventStatus ev with
      | some st => updateCandidateStatus db1 cid st
      | none => db1
    (db2, .ok 200)
  | _, _ => (db, .err 400 "Missing candidate_id or event")

/-- `send_sequence.ts`, POST path after JSON parsing.  `freshId` stands for
the row id the database generates for a newly inserted outreach row;
`apolloApiKey`/`sendgridApiKey`/`featureFlags` are the environment values read
at the top of the file.  The computed `mockMode` flag only feeds the engagement
payload (omitted here) and changes no control flow. -/
def send_sequence (db : DB) (candidate_id : Option String) (now : Nat)
    (freshId : String) (apolloApiKey sendgridApiKey : Option String)
    (featureFlags : List String) : DB × Resp :=
  match truthyStr candidate_id with
  | none => (db, .err 400 "candidate_id is required")
  | some cid =>
    match db.candidates.find? (fun c => c.id == cid) with
    | none => (db, .err 404 "Candidate not found")
    | some _ =>
      let provider :=
        if (truthyStr apolloApiKey).isSome then "apollo"
        else if (truthyStr sendgridApiKey).isSome then "sendgrid"
        else "none"
      let db1 :=
        match db.outreach.find? (fun o => o.candidate_id == cid) with
        | none =>
          { db with outreach := db.outreach ++
              [{ id := freshId, candidate_id := cid, provider := provider,
                 step := 1, last_sent_at := some now, next_send_at := none }] }
        | some existing =>
          { db with outreach := db.outreach.map fun o =>
              if o.id == existing.id then
                { o with step := o.step + 1, last_sent_at := some now }
              else o }
      let db2 := updateCandidateStatus db1 cid .contacted
      let db3 := { db2 with engagements := db2.engagements ++ [⟨cid, "sent"⟩] }
      (db3, .ok 200)

/-- `schedule_meeting.ts`, POST path after JSON parsing: unconditionally set
the candidate's status to `interviewing` and record a `scheduled` engagement
(the returned mock Calendly URL is part of the 200 body, not of the store). -/
def schedule_meeting (db : DB) (candidate_id : Option String) : DB × Resp :=
  match truthyStr candidate_id with
  | none => (db, .err 400 "candidate_id is required")
  | some cid =>
    let db1 := updateCandidateStatus db cid .interviewing
    let db2 := { db1 with engagements := db1.engagements ++ [⟨cid, "scheduled"⟩] }
    (db2, .ok 200)

/-- An invocation of another capability (search, enrichment, outreach send)
that an orchestrator cycle could dispatch.  `pipeline_daemon.ts` performs only
Supabase reads and `config` inserts — its body contains no call to
`xray_search`, `apollo_enrich` or `send_sequence` — so the trace it emits
below is empty. -/
inductive GatewayCall where
  | search_leads (role_id : String) (count : Nat)
  | enrich_leads (role_id : String) (count : Nat)
  | send_outreach (candidate_id : String)
deriving DecidableEq, Repr

/-- Body of the per-role loop of `pipeline_daemon.ts`: count the role's
candidates and, when the count is below `min_pipeline`, insert one log row
into `config` keyed `pipeline_<role.id>_<Date.now()>`. -/
def daemonStep (now : Nat) (d : DB) (role : Role) : DB :=
  let depth := (d.candidates.filter (fun c => c.role_id == role.id)).length
  if depth < role.min_pipeline then
    { d with config := d.config ++
        [⟨"pipeline_" ++ role.id ++ "_" ++ toString now,
          "Pipeline underfilled for role " ++ role.title, depth⟩] }
  else d

/-- `pipeline_daemon.ts`: one scheduled orchestrator cycle.  Fetch the roles
with status `open` and run the loop body on each; also expose the (empty)
trace of capability invocations the cycle dispatches. -/
def pipeline_daemon (db : DB) (now : Nat) : DB × List GatewayCall :=
  ((db.roles.filter (fun r => r.status == "open")).foldl (daemonStep now) db, [])

/-- Result shape of resume screening (`screen_resume.ts`). -/
structure ScreenResult where
  one_liner : String
  culture_score : Nat
  technical_score : Nat
  experience_score : Nat
  fit_score : Nat
  top_reasons : List String
  interview_focus : List String
deriving DecidableEq, Repr

/-- `mockScreen()` of `screen_resume.ts`: three sub-scores
`Math.floor(Math.random()*5)+1` and
`fit = Math.min(100, culture*20 + technical*15 + experience*15 +
Math.floor(Math.random()*20))`, with fixed canned text. -/
def mockScreen (rand : Nat → Nat) : ScreenResult :=
  let culture := rand 0 % 5 + 1
  let technical := rand 1 % 5 + 1
  let experience := rand 2 % 5 + 1
  let fit := min 100 (culture * 20 + technical * 15 + experience * 15 + rand 3 % 20)
  { one_liner := "Seasoned engineer with relevant experience."
    culture_score := culture
    technical_score := technical
    experience_score := experience
    fit_score := fit
    top_reasons := ["Strong technical background", "Relevant experience", "Good cultural fit"]
    interview_focus := ["System design", "Team collaboration", "Technical depth"] }

/-- The screening result built by `handleScreenResume` in `src/server.js`:
sub-scores `Math.floor(Math.random()*5)+1`, fit
`Math.floor(Math.random()*100)`; the same scores are pushed onto the stored
candidate row with status `screened`. -/
def serverScreenResult (rand : Nat → Nat) : ScreenResult :=
  { one_liner := "Seasoned engineer with relevant experience."
    culture_score := rand 0 % 5 + 1
    technical_score := rand 1 % 5 + 1
    experience_score := rand 2 % 5 + 1
    fit_score := rand 3 % 100
    top_reasons := ["Strong technical background", "Relevant experience", "Good cultural fit"]
    interview_focus := ["System design", "Team collaboration", "Technical depth"] }

/-- A sourcing lead (`xray_search.ts`). -/
structure Lead where
  name : String
  title : String
  company : String
  location : String
  public_url : String
deriving DecidableEq, Repr

/-- `mockLeads()` of `xray_search.ts`: a fixed list of three canned leads. -/
def mockLeads : List Lead :=
  [⟨"Grace Hopper", "Senior Backend Engineer", "DemoCo", "Austin, TX",
    "https://example.com/grace"⟩,
   ⟨"Linus Torvalds", "Kernel Developer", "Open Source", "Portland, OR",
    "https://example.com/linus"⟩,
   ⟨"Ada Lovelace", "Software Architect", "MathWorks", "London, UK",
    "https://example.com/ada"⟩]

/-- The mock branch of the `xray_search.ts` handler:
`mockLeads().slice(0, count)` for the requested count (default 5 upstream). -/
def xrayMockResponse (count : Nat) : List Lead :=
  mockLeads.take count

/-- Transcribed from the spec §3 candidate state machine
(`sourced → contacted → interested → screened → interviewing → offered →
hired`, with `rejected` reachable from `contacted`, `interested`,
`screened`).  The code stores plain status strings and has no transition
graph; this relation exists only to compare the code's observed transitions
against the spec's graph. -/
def specEdge : Status → Status → Bool
  | .sourced, .contacted => true
  | .contacted, .interested => true
  | .interested, .screened => true
  | .screened, .interviewing => true
  | .interviewing, .offered => true
  | .offered, .hired => true
  | .contacted, .rejected => true
  | .interested, .rejected => true
  | .screened, .rejected => true
  | _, _ => false

/-- The screening result chosen by the `serve` handler of `screen_resume.ts`:
`mockScreen()` when the `mock_screen_resume` feature flag is set or the
OpenAI key is falsy, otherwise the collaborator's response — which
`callOpenAI` produces as `JSON.parse(content) as ScreenResult`, a cast with
no runtime validation, modelled as an oracle value `live` passed through
verbatim. -/
def screenResult (featureFlags : List String) (openAiKey : Option String)
    (rand : Nat → Nat) (live : ScreenResult) : ScreenResult :=
  if featureFlags.contains "mock_screen_resume" || (truthyStr openAiKey).isNone then
    mockScreen rand
  else live

/-- The `candidates` row inserted at the end of the `screen_resume.ts`
handler, projected to the columns it sets from the result: summary and the
four score columns are taken from the chosen result unchanged, status is
`screened` (`schema.sql` puts no CHECK constraint on the score columns). -/
structure ScreenedRow where
  role_id : String
  summary : String
  culture_score : Nat
  technical_score : Nat
  experience_score : Nat
  fit_score : Nat
  status : Status
deriving DecidableEq, Repr

/-- The insert payload of `screen_resume.ts`: the chosen result's scores are
stored without clamping or range checks. -/
def screenInsertRow (role_id : String) (result : ScreenResult) : ScreenedRow :=
  { role_id := role_id
    summary := result.one_liner
    culture_score := result.culture_score
    technical_score := result.technical_score
    experience_score := result.experience_score
    fit_score := result.fit_score
    status := .screened }

/-! ### Helper lemmas -/

/-- `find?` commutes with a map that preserves the predicate: the first match
of the mapped list is the image of the first match of the original list. -/
theorem find?_map_pres {α : Type} (f : α → α) (p : α → Bool)
    (hf : ∀ a, p (f a) = p a) :
    ∀ (l : List α) (a : α), l.find? p = some a → (l.map f).find? p = some (f a) := by
  intro l
  induction l with
  | nil => intro a h; simp at h
  | cons x xs ih =>
    intro a h
    cases hx : p x with
    | false =>
      rw [List.find?_cons_of_neg _ (by simp [hx])] at h
      rw [List.map_cons, List.find?_cons_of_neg _ (by simp [hf, hx])]
      exact ih a h
    | true =>
      rw [List.find?_cons_of_pos _ hx] at h
      cases h
      rw [List.map_cons, List.find?_cons_of_pos _ (by simp [hf, hx])]

/-- The unconditional status write maps the first matching candidate row to
the same row with the new status. -/
theorem find?_updateCandidateStatus (db : DB) (cid : String) (st : Status)
    (c : Candidate) (h : db.candidates.find? (fun x => x.id == cid) = some c) :
    (updateCandidateStatus db cid st).candidates.find? (fun x => x.id == cid)
      = some { c with status := st } := by
  have hp : (c.id == cid) = true := by simpa using List.find?_some h
  have hmap := find?_map_pres
      (fun x : Candidate => if x.id == cid then { x with status := st } else x)
      (fun x : Candidate => x.id == cid)
      (fun a => by by_cases ha : (a.id == cid) = true <;> simp [ha])
      db.candidates c h
  simpa [updateCandidateStatus, hp] using hmap

/-- After the unconditional status write, the stored status of an existing
candidate is the written value, whatever it was before. -/
theorem statusOf_update (db : DB) (cid : String) (st : Status)
    (c : Candidate) (h : db.candidates.find? (fun x => x.id == cid) = some c) :
    statusOf (updateCandidateStatus db cid st) cid = some st := by
  simp [statusOf, find?_updateCandidateStatus db cid st c h]

/-- The per-role daemon loop body touches only the `config` table. -/
theorem daemonStep_preserves (now : Nat) (d : DB) (r : Role) :
    (daemonStep now d r).roles = d.roles ∧
    (daemonStep now d r).candidates = d.candidates ∧
    (daemonStep now d r).outreach = d.outreach ∧
    (daemonStep now d r).engagements = d.engagements := by
  simp only [daemonStep]
  split <;> exact ⟨rfl, rfl, rfl, rfl⟩

/-- Folding the daemon loop body over any role list touches only `config`. -/
theorem foldl_daemonStep_preserves (now : Nat) :
    ∀ (l : List Role) (d : DB),
      (l.foldl (daemonStep now) d).roles = d.roles ∧
      (l.foldl (daemonStep now) d).candidates = d.candidates ∧
      (l.foldl (daemonStep now) d).outreach = d.outreach ∧
      (l.foldl (daemonStep now) d).engagements = d.engagements := by
  intro l
  induction l with
  | nil => intro d; exact ⟨rfl, rfl, rfl, rfl⟩
  | cons a t ih =>
    intro d
    have h1 := daemonStep_preserves now d a
    have h2 := ih (daemonStep now d a)
    exact ⟨h2.1.trans h1.1, h2.2.1.trans h1.2.1,
           h2.2.2.1.trans h1.2.2.1, h2.2.2.2.trans h1.2.2.2⟩

/-- The daemon loop body only appends to `config`. -/
theorem daemonStep_config_mono (now : Nat) (d : DB) (r : Role) (e : ConfigEntry)
    (h : e ∈ d.config) : e ∈ (daemonStep now d r).config := by
  simp only [daemonStep]
  split
  · exact List.mem_append_left _ h
  · exact h

/-- Folding the daemon loop body only appends to `config`. -/
theorem foldl_config_mono (now : Nat) :
    ∀ (l : List Role) (d : DB) (e : ConfigEntry),
      e ∈ d.config → e ∈ (l.foldl (daemonStep now) d).config := by
  intro l
  induction l with
  | nil => intro d e h; exact h
  | cons a t ih =>
    intro d e h
    exact ih (daemonStep now d a) e (daemonStep_config_mono now d a e h)

/-- Processing a role list containing an underfilled role adds that role's
log entry to `config` (the candidate table never changes along the fold, so
the depth check always reads the original candidate list). -/
theorem foldl_config_adds (now : Nat) (base : DB) :
    ∀ (l : List Role) (d : DB), d.candidates = base.candidates →
      ∀ r ∈ l,
        (base.candidates.filter (fun c => c.role_id == r.id)).length < r.min_pipeline →
        (⟨"pipeline_" ++ r.id ++ "_" ++ toString now,
          "Pipeline underfilled for role " ++ r.title,
          (base.candidates.filter (fun c => c.role_id == r.id)).length⟩ : ConfigEntry)
          ∈ (l.foldl (daemonStep now) d).config := by
  intro l
  induction l with
  | nil => intro d _ r hr; simp at hr
  | cons a t ih =>
    intro d hd r hr hdepth
    rcases List.mem_cons.mp hr with rfl | hrt
    · rw [List.foldl_cons]
      apply foldl_config_mono
      simp only [daemonStep, hd]
      rw [if_pos hdepth]
      exact List.mem_append_right _ (List.mem_singleton.mpr rfl)
    · rw [List.foldl_cons]
      exact ih (daemonStep now d a)
        ((daemonStep_preserves now d a).2.1.trans hd) r hrt hdepth

/-! ### Claims -/

/-- **C1, counterexample.**  The claim says no operation ever moves a
candidate's status back to an earlier non-rejected state.  The code's webhook
ingestion writes the event's mapped status unconditionally: for a candidate
stored as `interested`, an `opened` event overwrites the status with
`contacted` — a transition not in the spec §3 graph, regressing along the
happy path. -/
theorem C1_counterexample :
    let db : DB := ⟨[], [⟨"c1", "r1", .interested⟩], [], [], []⟩
    let p : WebhookPayload := ⟨some "c1", none, some "opened", none⟩
    statusOf db "c1" = some .interested ∧
    statusOf (ingest_webhook db p).1 "c1" = some .contacted ∧
    specEdge .interested .contacted = false := by
  decide

/-- **C1 (amended).**  The status-writing operations write a fixed target
status without consulting the stored status: for a candidate in any prior
status, an `opened` webhook sets `contacted`, `send_sequence` sets
`contacted`, and `schedule_meeting` sets `interviewing`; hence transitions
outside the spec's graph (including regressions) occur. -/
theorem C1_amended (db : DB) (cid : String) (hcid : cid ≠ "") (c : Candidate)
    (hfind : db.candidates.find? (fun x => x.id == cid) = some c) :
    statusOf (ingest_webhook db ⟨some cid, none, some "opened", none⟩).1 cid
      = some .contacted ∧
    (∀ now freshId ak sk ff,
      statusOf (send_sequence db (some cid) now freshId ak sk ff).1 cid
        = some .contacted) ∧
    statusOf (schedule_meeting db (some cid)).1 cid = some .interviewing := by
  have htr : truthyStr (some cid) = some cid := by simp [truthyStr, hcid]
  refine ⟨?_, ?_, ?_⟩
  · simp only [ingest_webhook, jsOr, htr, eventStatus]
    norm_num
    exact statusOf_update _ cid .contacted c hfind
  · intro now freshId ak sk ff
    simp only [send_sequence, htr, hfind]
    cases hof : db.outreach.find? (fun o => o.candidate_id == cid) with
    | none => exact statusOf_update _ cid .contacted c hfind
    | some ex => exact statusOf_update _ cid .contacted c hfind
  · simp only [schedule_meeting, htr]
    exact statusOf_update _ cid .interviewing c hfind

/-- **C1 (amended), witness.**  A `hired` candidate is dragged back to
`contacted`/`interviewing` by the three operations. -/
theorem C1_amended_witness :
    statusOf (ingest_webhook ⟨[], [⟨"c1", "r1", .hired⟩], [], [], []⟩
        ⟨some "c1", none, some "opened", none⟩).1 "c1" = some .contacted ∧
    (∀ now freshId ak sk ff,
      statusOf (send_sequence ⟨[], [⟨"c1", "r1", .hired⟩], [], [], []⟩
          (some "c1") now freshId ak sk ff).1 "c1" = some .contacted) ∧
    statusOf (schedule_meeting ⟨[], [⟨"c1", "r1", .hired⟩], [], [], []⟩
        (some "c1")).1 "c1" = some .interviewing :=
  C1_amended ⟨[], [⟨"c1", "r1", .hired⟩], [], [], []⟩ "c1" (by decide)
    ⟨"c1", "r1", .hired⟩ (by decide)

/-- **C2, counterexample.**  The claim says concurrent status updates are
compare-and-swaps: of two racing updates with the same observed prior status,
exactly one succeeds and the other reports conflict.  In the code, neither
update carries an expected prior status: a webhook `replied` (observed from
`sourced`, writing `interested`) and a `send_sequence` racing from the same
observed `sourced` both answer 200, and the later write silently overwrites
the earlier transition — no conflict is ever reported. -/
theorem C2_counterexample :
    let db0 : DB := ⟨[], [⟨"c1", "r1", .sourced⟩], [], [], []⟩
    let s1 := ingest_webhook db0 ⟨some "c1", none, some "replied", none⟩
    let s2 := send_sequence s1.1 (some "c1") 100 "o1" none none []
    s1.2 = .ok 200 ∧ s2.2 = .ok 200 ∧
    statusOf s1.1 "c1" = some .interested ∧
    statusOf s2.1 "c1" = some .contacted := by
  decide

/-- **C2 (amended).**  Every candidate status update in the code is an
unconditional overwrite with no compare-and-swap and no conflict outcome: two
sequential updates on the same candidate both complete, and the final stored
status is the second update's target, whatever the first wrote. -/
theorem C2_amended (db : DB) (cid : String) (s1 s2 : Status) (c : Candidate)
    (h : db.candidates.find? (fun x => x.id == cid) = some c) :
    statusOf (updateCandidateStatus (updateCandidateStatus db cid s1) cid s2) cid
      = some s2 :=
  statusOf_update _ cid s2 { c with status := s1 }
    (find?_updateCandidateStatus db cid s1 c h)

/-- **C2 (amended), witness.** -/
theorem C2_amended_witness :
    statusOf (updateCandidateStatus
      (updateCandidateStatus ⟨[], [⟨"c1", "r1", .sourced⟩], [], [], []⟩
        "c1" .interested) "c1" .contacted) "c1" = some .contacted :=
  C2_amended ⟨[], [⟨"c1", "r1", .sourced⟩], [], [], []⟩ "c1" .interested .contacted
    ⟨"c1", "r1", .sourced⟩ (by decide)

/-- **C3.**  For any existing candidate and any truthy event kind, webhook
ingestion answers 200, appends exactly one engagement row carrying the
candidate id and event, maps `opened→contacted`, `replied→interested`,
`bounced→rejected`, leaves every other event kind without a status change,
and stores exactly the mapped status (the prior status when the mapping is
empty). -/
theorem C3_event_mapping (db : DB) (cid ev : String) (hcid : cid ≠ "")
    (hev : ev ≠ "") (c : Candidate)
    (hfind : db.candidates.find? (fun x => x.id == cid) = some c) :
    (ingest_webhook db ⟨some cid, none, some ev, none⟩).2 = .ok 200 ∧
    (ingest_webhook db ⟨some cid, none, some ev, none⟩).1.engagements
      = db.engagements ++ [⟨cid, ev⟩] ∧
    eventStatus "opened" = some .contacted ∧
    eventStatus "replied" = some .interested ∧
    eventStatus "bounced" = some .rejected ∧
    (ev ≠ "opened" → ev ≠ "replied" → ev ≠ "bounced" → eventStatus ev = none) ∧
    statusOf (ingest_webhook db ⟨some cid, none, some ev, none⟩).1 cid
      = some ((eventStatus ev).getD c.status) ∧
    (eventStatus ev = none →
      (ingest_webhook db ⟨some cid, none, some ev, none⟩).1.candidates
        = db.candidates) := by
  have htrc : truthyStr (some cid) = some cid := by simp [truthyStr, hcid]
  have htre : truthyStr (some ev) = some ev := by simp [truthyStr, hev]
  refine ⟨?_, ?_, rfl, rfl, rfl, ?_, ?_, ?_⟩
  · simp only [ingest_webhook, jsOr, htrc, htre]
  · simp only [ingest_webhook, jsOr, htrc, htre]
    cases eventStatus ev <;> rfl
  · intro h1 h2 h3
    simp [eventStatus, h1, h2, h3]
  · simp only [ingest_webhook, jsOr, htrc, htre]
    cases hes : eventStatus ev with
    | none => simp [statusOf, hfind]
    | some st =>
      simpa using statusOf_update
        ({ db with engagements := db.engagements ++ [⟨cid, ev⟩] }) cid st c hfind
  · intro hes
    simp only [ingest_webhook, jsOr, htrc, htre, hes]

/-- **C3, witness.**  A `scheduled` event for a `contacted` candidate:
200, engagement appended, status untouched. -/
theorem C3_witness :
    (ingest_webhook ⟨[], [⟨"c1", "r1", .contacted⟩], [], [], []⟩
        ⟨some "c1", none, some "scheduled", none⟩).2 = .ok 200 ∧
    (ingest_webhook ⟨[], [⟨"c1", "r1", .contacted⟩], [], [], []⟩
        ⟨some "c1", none, some "scheduled", none⟩).1.engagements
      = [] ++ [⟨"c1", "scheduled"⟩] ∧
    eventStatus "opened" = some .contacted ∧
    eventStatus "replied" = some .interested ∧
    eventStatus "bounced" = some .rejected ∧
    ("scheduled" ≠ "opened" → "scheduled" ≠ "replied" → "scheduled" ≠ "bounced" →
      eventStatus "scheduled" = none) ∧
    statusOf (ingest_webhook ⟨[], [⟨"c1", "r1", .contacted⟩], [], [], []⟩
        ⟨some "c1", none, some "scheduled", none⟩).1 "c1"
      = some ((eventStatus "scheduled").getD Status.contacted) ∧
    (eventStatus "scheduled" = none →
      (ingest_webhook ⟨[], [⟨"c1", "r1", .contacted⟩], [], [], []⟩
          ⟨some "c1", none, some "scheduled", none⟩).1.candidates
        = [⟨"c1", "r1", .contacted⟩]) :=
  C3_event_mapping ⟨[], [⟨"c1", "r1", .contacted⟩], [], [], []⟩ "c1" "scheduled"
    (by decide) (by decide) ⟨"c1", "r1", .contacted⟩ (by decide)

/-- **C4, counterexample.**  The claim says a role with `min_pipeline = 5`
and depth 2 makes the cycle issue exactly one `search_leads` request for 3
leads and create new `sourced` candidates.  The daemon stub dispatches no
capability call at all and creates no candidate; it only inserts a
"pipeline underfilled" log row into `config`. -/
theorem C4_counterexample :
    let db : DB := ⟨[⟨"r1", "Senior Backend Engineer", "open", 5⟩],
                    [⟨"c1", "r1", .sourced⟩, ⟨"c2", "r1", .contacted⟩],
                    [], [], []⟩
    (pipeline_daemon db 0).2 = [] ∧
    (pipeline_daemon db 0).1.candidates = db.candidates ∧
    (pipeline_daemon db 0).1.config =
      [⟨"pipeline_r1_0", "Pipeline underfilled for role Senior Backend Engineer", 2⟩] := by
  decide

/-- **C4 (amended).**  For every open role whose candidate count is below its
`min_pipeline`, one cycle issues no capability request and creates no
candidates; it records the underfilled pipeline as a `config` log row keyed
`pipeline_<role-id>_<now>` carrying the role title and the current count. -/
theorem C4_amended (db : DB) (now : Nat) (r : Role)
    (hr : r ∈ db.roles) (hopen : r.status = "open")
    (hdepth : (db.candidates.filter (fun c => c.role_id == r.id)).length
        < r.min_pipeline) :
    (pipeline_daemon db now).2 = [] ∧
    (pipeline_daemon db now).1.candidates = db.candidates ∧
    (pipeline_daemon db now).1.outreach = db.outreach ∧
    (pipeline_daemon db now).1.engagements = db.engagements ∧
    (⟨"pipeline_" ++ r.id ++ "_" ++ toString now,
      "Pipeline underfilled for role " ++ r.title,
      (db.candidates.filter (fun c => c.role_id == r.id)).length⟩ : ConfigEntry)
      ∈ (pipeline_daemon db now).1.config := by
  have hpres := foldl_daemonStep_preserves now
      (db.roles.filter (fun x => x.status == "open")) db
  refine ⟨rfl, hpres.2.1, hpres.2.2.1, hpres.2.2.2, ?_⟩
  exact foldl_config_adds now db _ db rfl r
    (List.mem_filter.mpr ⟨hr, by simp [hopen]⟩) hdepth

/-- **C4 (amended), witness.** -/
theorem C4_amended_witness :
    (pipeline_daemon ⟨[⟨"r1", "Senior Backend Engineer", "open", 5⟩],
        [⟨"c1", "r1", .sourced⟩, ⟨"c2", "r1", .contacted⟩], [], [], []⟩ 0).2 = [] ∧
    (pipeline_daemon ⟨[⟨"r1", "Senior Backend Engineer", "open", 5⟩],
        [⟨"c1", "r1", .sourced⟩, ⟨"c2", "r1", .contacted⟩], [], [], []⟩ 0).1.candidates
      = [⟨"c1", "r1", .sourced⟩, ⟨"c2", "r1", .contacted⟩] ∧
    (pipeline_daemon ⟨[⟨"r1", "Senior Backend Engineer", "open", 5⟩],
        [⟨"c1", "r1", .sourced⟩, ⟨"c2", "r1", .contacted⟩], [], [], []⟩ 0).1.outreach
      = [] ∧
    (pipeline_daemon ⟨[⟨"r1", "Senior Backend Engineer", "open", 5⟩],
        [⟨"c1", "r1", .sourced⟩, ⟨"c2", "r1", .contacted⟩], [], [], []⟩ 0).1.engagements
      = [] ∧
    (⟨"pipeline_" ++ "r1" ++ "_" ++ toString 0,
      "Pipeline underfilled for role " ++ "Senior Backend Engineer",
      ([⟨"c1", "r1", .sourced⟩, ⟨"c2", "r1", .contacted⟩].filter
        (fun c : Candidate => c.role_id == "r1")).length⟩ : ConfigEntry)
      ∈ (pipeline_daemon ⟨[⟨"r1", "Senior Backend Engineer", "open", 5⟩],
          [⟨"c1", "r1", .sourced⟩, ⟨"c2", "r1", .contacted⟩], [], [], []⟩ 0).1.config :=
  C4_amended ⟨[⟨"r1", "Senior Backend Engineer", "open", 5⟩],
      [⟨"c1", "r1", .sourced⟩, ⟨"c2", "r1", .contacted⟩], [], [], []⟩ 0
    ⟨"r1", "Senior Backend Engineer", "open", 5⟩
    (by decide) rfl (by decide)

/-- **C5, counterexample.**  The claim says each successful send computes a
future `next_send_at` from an exponential backoff schedule.  In the code the
first send inserts the outreach row with `next_send_at: null` and later sends
never touch that column: after two successful sends the row still has
`next_send_at = none` — no backoff schedule exists. -/
theorem C5_counterexample :
    let db0 : DB := ⟨[], [⟨"c1", "r1", .sourced⟩], [], [], []⟩
    let s1 := send_sequence db0 (some "c1") 100 "o1" none none []
    let s2 := send_sequence s1.1 (some "c1") 200 "o2" none none []
    s1.2 = .ok 200 ∧ s2.2 = .ok 200 ∧
    s1.1.outreach = [⟨"o1", "c1", "none", 1, some 100, none⟩] ∧
    s2.1.outreach = [⟨"o1", "c1", "none", 2, some 200, none⟩] := by
  decide

/-- **C5 (amended).**  On every successful send for an existing candidate the
function answers 200 and: on the first send it appends the outreach row with
`step = 1`, `last_sent_at = now` and `next_send_at = null`; on a later send it
increments the row's step and sets `last_sent_at = now`, leaving
`next_send_at` (and every other column) unchanged.  No backoff schedule is
computed and `next_send_at` is never assigned a future time. -/
theorem C5_amended (db : DB) (cid : String) (now : Nat) (freshId : String)
    (ak sk : Option String) (ff : List String) (hcid : cid ≠ "")
    (c : Candidate) (hc : db.candidates.find? (fun x => x.id == cid) = some c) :
    (send_sequence db (some cid) now freshId ak sk ff).2 = .ok 200 ∧
    (db.outreach.find? (fun o => o.candidate_id == cid) = none →
      (send_sequence db (some cid) now freshId ak sk ff).1.outreach
        = db.outreach ++
          [⟨freshId, cid,
            if (truthyStr ak).isSome then "apollo"
            else if (truthyStr sk).isSome then "sendgrid" else "none",
            1, some now, none⟩]) ∧
    (∀ ex, db.outreach.find? (fun o => o.candidate_id == cid) = some ex →
      ∃ ex', (send_sequence db (some cid) now freshId ak sk ff).1.outreach.find?
                (fun o => o.candidate_id == cid) = some ex' ∧
        ex'.step = ex.step + 1 ∧ ex'.last_sent_at = some now ∧
        ex'.next_send_at = ex.next_send_at ∧ ex'.id = ex.id ∧
        ex'.provider = ex.provider ∧ ex'.candidate_id = ex.candidate_id) := by
  have htr : truthyStr (some cid) = some cid := by simp [truthyStr, hcid]
  refine ⟨?_, ?_, ?_⟩
  · simp only [send_sequence, htr, hc]
  · intro hof
    simp only [send_sequence, htr, hc, hof]
    rfl
  · intro ex hof
    simp only [send_sequence, htr, hc, hof]
    have hfind2 := find?_map_pres
      (fun o : Outreach => if o.id == ex.id then
        { o with step := o.step + 1, last_sent_at := some now } else o)
      (fun o : Outreach => o.candidate_id == cid)
      (fun a => by by_cases ha : (a.id == ex.id) = true <;> simp [ha])
      db.outreach ex hof
    have hfex : (if (ex.id == ex.id) = true then
        ({ ex with step := ex.step + 1, last_sent_at := some now } : Outreach)
        else ex)
        = { ex with step := ex.step + 1, last_sent_at := some now } :=
      if_pos (beq_self_eq_true ex.id)
    simp only [hfex] at hfind2
    exact ⟨{ ex with step := ex.step + 1, last_sent_at := some now },
      hfind2, rfl, rfl, rfl, rfl, rfl, rfl⟩

/-- **C5 (amended), witness.**  First and repeat send on a concrete store. -/
theorem C5_amended_witness :
    ((send_sequence ⟨[], [⟨"c1", "r1", .sourced⟩], [],
        [⟨"c1", "scheduled"⟩], []⟩ (some "c1") 100 "o1" none none []).2 = .ok 200) ∧
    (([] : List Outreach).find? (fun o => o.candidate_id == "c1") = none →
      (send_sequence ⟨[], [⟨"c1", "r1", .sourced⟩], [],
          [⟨"c1", "scheduled"⟩], []⟩ (some "c1") 100 "o1" none none []).1.outreach
        = [] ++ [⟨"o1", "c1",
            if (truthyStr none).isSome then "apollo"
            else if (truthyStr none).isSome then "sendgrid" else "none",
            1, some 100, none⟩]) ∧
    (∀ ex, ([] : List Outreach).find? (fun o => o.candidate_id == "c1") = some ex →
      ∃ ex', (send_sequence ⟨[], [⟨"c1", "r1", .sourced⟩], [],
            [⟨"c1", "scheduled"⟩], []⟩ (some "c1") 100 "o1" none none []).1.outreach.find?
              (fun o => o.candidate_id == "c1") = some ex' ∧
        ex'.step = ex.step + 1 ∧ ex'.last_sent_at = some 100 ∧
        ex'.next_send_at = ex.next_send_at ∧ ex'.id = ex.id ∧
        ex'.provider = ex.provider ∧ ex'.candidate_id = ex.candidate_id) :=
  C5_amended ⟨[], [⟨"c1", "r1", .sourced⟩], [], [⟨"c1", "scheduled"⟩], []⟩
    "c1" 100 "o1" none none [] (by decide) ⟨"c1", "r1", .sourced⟩ (by decide)

/-- **C6.**  Re-running an orchestrator cycle against the state the previous
cycle left (no intervening external events) dispatches no outreach send and
changes no candidate status: the cycle's capability trace is empty and the
candidates, outreach and engagements tables are untouched by the second
cycle. -/
theorem C6_second_cycle_noop (db : DB) (n1 n2 : Nat) :
    (pipeline_daemon (pipeline_daemon db n1).1 n2).2 = [] ∧
    (pipeline_daemon (pipeline_daemon db n1).1 n2).1.candidates
      = (pipeline_daemon db n1).1.candidates ∧
    (pipeline_daemon (pipeline_daemon db n1).1 n2).1.outreach
      = (pipeline_daemon db n1).1.outreach ∧
    (pipeline_daemon (pipeline_daemon db n1).1 n2).1.engagements
      = (pipeline_daemon db n1).1.engagements := by
  have h := foldl_daemonStep_preserves n2
    ((pipeline_daemon db n1).1.roles.filter (fun r => r.status == "open"))
    (pipeline_daemon db n1).1
  exact ⟨rfl, h.2.1, h.2.2.1, h.2.2.2⟩

/-- **C7.**  A webhook payload whose candidate identifier (after the
`candidate_id || recipient_id` fallback) or event kind (after the
`event || type` fallback) is falsy is answered with a 400 error and the store
is returned unchanged: no engagement row, no status change. -/
theorem C7_malformed_rejected (db : DB) (p : WebhookPayload)
    (h : jsOr p.candidate_id p.recipient_id = none ∨ jsOr p.event p.type = none) :
    ingest_webhook db p = (db, .err 400 "Missing candidate_id or event") := by
  rcases h with h | h
  · simp [ingest_webhook, h]
  · cases hc : jsOr p.candidate_id p.recipient_id <;>
      simp [ingest_webhook, h, hc]

/-- **C7, witness.**  A payload with an event but no candidate id. -/
theorem C7_witness :
    ingest_webhook ⟨[], [⟨"c1", "r1", .sourced⟩], [], [], []⟩
        ⟨none, some "", some "opened", none⟩
      = (⟨[], [⟨"c1", "r1", .sourced⟩], [], [], []⟩,
         .err 400 "Missing candidate_id or event") :=
  C7_malformed_rejected ⟨[], [⟨"c1", "r1", .sourced⟩], [], [], []⟩
    ⟨none, some "", some "opened", none⟩ (Or.inl (by decide))

/-- **C8, counterexample.**  The claim says mock-mode results are
deterministic: two invocations with identical inputs return identical
results.  `mockScreen()` draws four fresh `Math.random()` values per
invocation; two invocations observing different draws return different
scores (here culture 1 vs 2), so the mock screening result is not a function
of the request input. -/
theorem C8_counterexample :
    mockScreen (fun _ => 0) ≠ mockScreen (fun _ => 1) := by
  decide

/-- **C8 (amended).**  In mock mode the canned content is fixed — the
screening one-liner, reasons and focus lists are identical across any two
invocations, and the mock lead list is a constant of the requested count —
but the mock screening scores are drawn from `Math.random` per invocation
and can differ between invocations with identical inputs. -/
theorem C8_amended (r r' : Nat → Nat) (count : Nat) :
    (mockScreen r).one_liner = (mockScreen r').one_liner ∧
    (mockScreen r).top_reasons = (mockScreen r').top_reasons ∧
    (mockScreen r).interview_focus = (mockScreen r').interview_focus ∧
    xrayMockResponse count = mockLeads.take count :=
  ⟨rfl, rfl, rfl, rfl⟩

/-- **C9, counterexample.**  The claim bounds every candidate record produced
by resume screening.  The live path of `screen_resume.ts` takes
`JSON.parse(content) as ScreenResult` from the collaborator with no runtime
validation and inserts those scores verbatim: with no mock flag and an OpenAI
key present, a collaborator response with culture 7, technical 0 and fit 150
is stored unchanged in the `screened` candidate row, violating every claimed
bound. -/
theorem C9_counterexample :
    let live : ScreenResult := ⟨"x", 7, 0, 9, 150, [], []⟩
    let row := screenInsertRow "r1"
      (screenResult [] (some "sk-live-key") (fun _ => 0) live)
    row.status = .screened ∧
    row.culture_score = 7 ∧ ¬(row.culture_score ≤ 5) ∧
    row.technical_score = 0 ∧ ¬(1 ≤ row.technical_score) ∧
    row.experience_score = 9 ∧ ¬(row.experience_score ≤ 5) ∧
    row.fit_score = 150 ∧ ¬(row.fit_score ≤ 100) := by
  decide

/-- **C9 (amended).**  Screening score bounds hold on the mock paths only:
for every random draw stream, `mockScreen` (edge function) and the server's
`handleScreenResume` produce sub-scores in 1–5 and a fit score in 0–100
(naturals, so only the upper bounds are non-trivial), and whenever the
handler selects mock mode (flag set or key falsy) the inserted candidate row
inherits these bounds; the live path stores the collaborator's scores
unvalidated and carries no such guarantee. -/
theorem C9_amended (r : Nat → Nat) (featureFlags : List String)
    (openAiKey : Option String) (live : ScreenResult) (rid : String) :
    (1 ≤ (mockScreen r).culture_score ∧ (mockScreen r).culture_score ≤ 5) ∧
    (1 ≤ (mockScreen r).technical_score ∧ (mockScreen r).technical_score ≤ 5) ∧
    (1 ≤ (mockScreen r).experience_score ∧ (mockScreen r).experience_score ≤ 5) ∧
    (mockScreen r).fit_score ≤ 100 ∧
    (1 ≤ (serverScreenResult r).culture_score ∧
      (serverScreenResult r).culture_score ≤ 5) ∧
    (1 ≤ (serverScreenResult r).technical_score ∧
      (serverScreenResult r).technical_score ≤ 5) ∧
    (1 ≤ (serverScreenResult r).experience_score ∧
      (serverScreenResult r).experience_score ≤ 5) ∧
    (serverScreenResult r).fit_score ≤ 100 ∧
    (featureFlags.contains "mock_screen_resume" = true ∨ truthyStr openAiKey = none →
      1 ≤ (screenInsertRow rid (screenResult featureFlags openAiKey r live)).culture_score ∧
      (screenInsertRow rid (screenResult featureFlags openAiKey r live)).culture_score ≤ 5 ∧
      1 ≤ (screenInsertRow rid (screenResult featureFlags openAiKey r live)).technical_score ∧
      (screenInsertRow rid (screenResult featureFlags openAiKey r live)).technical_score ≤ 5 ∧
      1 ≤ (screenInsertRow rid (screenResult featureFlags openAiKey r live)).experience_score ∧
      (screenInsertRow rid (screenResult featureFlags openAiKey r live)).experience_score ≤ 5 ∧
      (screenInsertRow rid (screenResult featureFlags openAiKey r live)).fit_score ≤ 100) := by
  have hmockrow : ∀ h : featureFlags.contains "mock_screen_resume" = true ∨
      truthyStr openAiKey = none,
      screenResult featureFlags openAiKey r live = mockScreen r := by
    intro h
    have hcond : (featureFlags.contains "mock_screen_resume"
        || (truthyStr openAiKey).isNone) = true := by
      rcases h with h | h
      · rw [h, Bool.true_or]
      · rw [h, Option.isNone_none, Bool.or_true]
    simp only [screenResult]
    rw [if_pos hcond]
  refine ⟨?_, ?_, ?_, ?_, ?_, ?_, ?_, ?_, ?_⟩
  all_goals first
    | (intro h
       rw [hmockrow h]
       simp only [screenInsertRow, mockScreen]
       omega)
    | (simp only [mockScreen, serverScreenResult]
       omega)

/-- **C9 (amended), witness.**  The mock-mode implication discharged with the
flag set and a concrete draw stream. -/
theorem C9_amended_witness :
    (1 ≤ (mockScreen (fun _ => 3)).culture_score ∧
      (mockScreen (fun _ => 3)).culture_score ≤ 5) ∧
    (1 ≤ (mockScreen (fun _ => 3)).technical_score ∧
      (mockScreen (fun _ => 3)).technical_score ≤ 5) ∧
    (1 ≤ (mockScreen (fun _ => 3)).experience_score ∧
      (mockScreen (fun _ => 3)).experience_score ≤ 5) ∧
    (mockScreen (fun _ => 3)).fit_score ≤ 100 ∧
    (1 ≤ (serverScreenResult (fun _ => 3)).culture_score ∧
      (serverScreenResult (fun _ => 3)).culture_score ≤ 5) ∧
    (1 ≤ (serverScreenResult (fun _ => 3)).technical_score ∧
      (serverScreenResult (fun _ => 3)).technical_score ≤ 5) ∧
    (1 ≤ (serverScreenResult (fun _ => 3)).experience_score ∧
      (serverScreenResult (fun _ => 3)).experience_score ≤ 5) ∧
    (serverScreenResult (fun _ => 3)).fit_score ≤ 100 ∧
    (["mock_screen_resume"].contains "mock_screen_resume" = true ∨
        truthyStr (some "sk-live-key") = none →
      1 ≤ (screenInsertRow "r1" (screenResult ["mock_screen_resume"]
            (some "sk-live-key") (fun _ => 3) ⟨"x", 7, 0, 9, 150, [], []⟩)).culture_score ∧
      (screenInsertRow "r1" (screenResult ["mock_screen_resume"]
            (some "sk-live-key") (fun _ => 3) ⟨"x", 7, 0, 9, 150, [], []⟩)).culture_score ≤ 5 ∧
      1 ≤ (screenInsertRow "r1" (screenResult ["mock_screen_resume"]
            (some "sk-live-key") (fun _ => 3) ⟨"x", 7, 0, 9, 150, [], []⟩)).technical_score ∧
      (screenInsertRow "r1" (screenResult ["mock_screen_resume"]
            (some "sk-live-key") (fun _ => 3) ⟨"x", 7, 0, 9, 150, [], []⟩)).technical_score ≤ 5 ∧
      1 ≤ (screenInsertRow "r1" (screenResult ["mock_screen_resume"]
            (some "sk-live-key") (fun _ => 3) ⟨"x", 7, 0, 9, 150, [], []⟩)).experience_score ∧
      (screenInsertRow "r1" (screenResult ["mock_screen_resume"]
            (some "sk-live-key") (fun _ => 3) ⟨"x", 7, 0, 9, 150, [], []⟩)).experience_score ≤ 5 ∧
      (screenInsertRow "r1" (screenResult ["mock_screen_resume"]
            (some "sk-live-key") (fun _ => 3) ⟨"x", 7, 0, 9, 150, [], []⟩)).fit_score ≤ 100) :=
  C9_amended (fun _ => 3) ["mock_screen_resume"] (some "sk-live-key")
    ⟨"x", 7, 0, 9, 150, [], []⟩ "r1"

/-- **C10.**  For every existing candidate — whatever its prior status,
terminal ones included — `send_sequence` answers 200, unconditionally stores
status `contacted` and appends a `sent` engagement event. -/
theorem C10_send_unconditional (db : DB) (cid : String) (now : Nat)
    (freshId : String) (ak sk : Option String) (ff : List String)
    (hcid : cid ≠ "") (c : Candidate)
    (hc : db.candidates.find? (fun x => x.id == cid) = some c) :
    (send_sequence db (some cid) now freshId ak sk ff).2 = .ok 200 ∧
    statusOf (send_sequence db (some cid) now freshId ak sk ff).1 cid
      = some .contacted ∧
    (send_sequence db (some cid) now freshId ak sk ff).1.engagements
      = db.engagements ++ [⟨cid, "sent"⟩] := by
  have htr : truthyStr (some cid) = some cid := by simp [truthyStr, hcid]
  refine ⟨?_, ?_, ?_⟩
  · simp only [send_sequence, htr, hc]
  · simp only [send_sequence, htr, hc]
    cases db.outreach.find? (fun o => o.candidate_id == cid) with
    | none => exact statusOf_update _ cid .contacted c hc
    | some ex => exact statusOf_update _ cid .contacted c hc
  · simp only [send_sequence, htr, hc]
    cases db.outreach.find? (fun o => o.candidate_id == cid) <;> rfl

/-- **C10, witness.**  A `rejected` candidate is pulled back to `contacted`
by a send. -/
theorem C10_witness :
    (send_sequence ⟨[], [⟨"c9", "r1", .rejected⟩], [], [], []⟩
        (some "c9") 7 "o9" none none []).2 = .ok 200 ∧
    statusOf (send_sequence ⟨[], [⟨"c9", "r1", .rejected⟩], [], [], []⟩
        (some "c9") 7 "o9" none none []).1 "c9" = some .contacted ∧
    (send_sequence ⟨[], [⟨"c9", "r1", .rejected⟩], [], [], []⟩
        (some "c9") 7 "o9" none none []).1.engagements
      = [] ++ [⟨"c9", "sent"⟩] :=
  C10_send_unconditional ⟨[], [⟨"c9", "r1", .rejected⟩], [], [], []⟩ "c9" 7 "o9"
    none none [] (by decide) ⟨"c9", "r1", .rejected⟩ (by decide)

end HireLoop
